import Mathlib

set_option linter.unusedVariables false

/-!
Verification development for the ezgo-poc route-optimization backend.

The Python services are shallowly embedded in Lean:
* floats are modelled as rationals (`ℚ`);
* the Mapbox network API is an abstract function from a coordinate list to a
  raw response (`Api`), so one provider call is one function application;
* numpy matrices are modelled either as `List (List ℚ)` (raw provider output)
  or as total functions `Nat → Nat → ℚ` (the assembled full matrix, matching
  `np.zeros` initialisation with default entry `0`);
* external libraries that are not part of the repository (HDBSCAN, OR-Tools)
  are abstracted as explicit inputs of the embedded functions.

Each embedded definition carries a pointer to the source file and lines it
translates.
-/

namespace EzGo

/-- Coordinates are `(latitude, longitude)` pairs of rationals, the standard
format used throughout the codebase. -/
abbrev Coord := ℚ × ℚ

/-- Coordinate-range validation performed by the matrix service
(`mapbox_service.py`, lines 93-96): latitude in `[-90, 90]`, longitude in
`[-180, 180]`. -/
def validCoord (c : Coord) : Bool :=
  decide (-90 ≤ c.1 ∧ c.1 ≤ 90 ∧ -180 ≤ c.2 ∧ c.2 ≤ 180)

/-- One entry of a row of the `durations` field of a Mapbox Matrix API
response: a JSON number, JSON `null`, or a float NaN / infinity.
`np.array(durations, dtype=float)` maps `null` to NaN, so `null`, `nan` and
`inf` are exactly the entries rejected by the NaN/inf check. -/
inductive DVal where
  | null : DVal
  | nan : DVal
  | inf : DVal
  | num (q : ℚ) : DVal
  deriving DecidableEq

/-- An entry that `np.isnan`/`np.isinf` flags after `np.array` conversion. -/
def DVal.isBad : DVal → Bool
  | .null => true
  | .nan => true
  | .inf => true
  | .num _ => false

/-- Numeric value of an entry (junk value `0` for non-numeric entries; the
embedding only reads it on rows that passed the NaN/inf check). -/
def DVal.toQ : DVal → ℚ
  | .num q => q
  | _ => 0

/-- The part of a Mapbox Matrix API JSON response that
`get_distance_matrix` inspects: the `code` field and the `durations`
matrix. -/
structure MatrixResponse where
  code : String
  durations : List (List DVal)

/-- The external travel-time provider, abstracted as a function from the
requested coordinate list to the raw response.  One call of
`requests.get` on the matrix URL is one application of this function. -/
abbrev Api := List Coord → MatrixResponse

/-- Embedding of `MapboxService.get_distance_matrix`
(`mapbox_service.py`, lines 64-181).  Every failure path of the Python
function (raised `ValueError` caught by the generic handler, invalid
coordinates, non-`Ok` response code, malformed `durations`, NaN/inf
entries, wrong shape) returns `None`; the embedding returns `none` in
exactly those cases.  Note the ordering nuance: in the source a ragged
`durations` list makes `np.isnan` raise (caught, `None`), while a
rectangular matrix of wrong row length fails the explicit shape check;
both are the final row-length test here, with the same `none` result. -/
def get_distance_matrix (api : Api) (coordinates : List Coord) : Option (List (List ℚ)) :=
  if 25 < coordinates.length then none            -- line 86: > 25 coordinates, ValueError
  else if coordinates.length < 2 then none        -- line 89: need at least 2 coordinates
  else if ¬ coordinates.all validCoord then none  -- lines 93-96: invalid coordinate
  -- `api coordinates` is the response of the network call (lines 107-127)
  else if (api coordinates).code ≠ "Ok" then none -- lines 129-132
  else if (api coordinates).durations.isEmpty ∨
      (api coordinates).durations.length ≠ coordinates.length then none
                                                  -- lines 135-142
  -- lines 144-149: the all-zero durations check only prints a warning and
  -- explicitly does NOT return None ("let the caller decide")
  else if (api coordinates).durations.any (fun row => row.any DVal.isBad) then none
                                                  -- lines 152-160: NaN/inf check
  else if (api coordinates).durations.any (fun row => row.length ≠ coordinates.length) then none
                                                  -- lines 162-166: shape check
  else some ((api coordinates).durations.map (fun row => row.map DVal.toQ))

/-- Entry `(i, j)` of a list-of-lists matrix, default `0` out of range. -/
def mget (M : List (List ℚ)) (i j : Nat) : ℚ := (M.getD i []).getD j 0

/-- Chunk size used by `get_distance_matrix_chunked`
(`mapbox_service.py`, line 218): 24 orders per chunk, leaving room for the
depot in each 25-coordinate call. -/
def chunkSize : Nat := 24

/-- Number of chunks (`mapbox_service.py`, line 224). -/
def numChunks (nOrders : Nat) : Nat := (nOrders + chunkSize - 1) / chunkSize

/-- The order coordinates of chunk `k`
(`order_coords[start_idx:end_idx]`, `mapbox_service.py`, line 232). -/
def chunkCoords (orderCoords : List Coord) (k : Nat) : List Coord :=
  (orderCoords.drop (chunkSize * k)).take chunkSize

/-- The assembled full matrix, as a total function (initialised by
`np.zeros`, so unwritten entries are `0`). -/
abbrev Mat := Nat → Nat → ℚ

/-- Effect on the full matrix of placing chunk `k`'s sub-matrix `C`
(`mapbox_service.py`, lines 244-252): the depot row slice
`full[0, start+1:end+1] = C[0, 1:]`, the depot column slice
`full[start+1:end+1, 0] = C[1:, 0]`, and the intra-chunk block
`full[start+1+i, start+1+j] = C[i+1, j+1]`.  Each loop iteration writes one
distinct cell with a value read from `C` only, so the loop nest is this
pointwise update. -/
def placeChunk (nOrders k : Nat) (C : List (List ℚ)) (M : Mat) : Mat :=
  fun a b =>
    let s := chunkSize * k
    let e := min (s + chunkSize) nOrders
    if a = 0 ∧ s + 1 ≤ b ∧ b ≤ e then mget C 0 (b - s)
    else if b = 0 ∧ s + 1 ≤ a ∧ a ≤ e then mget C (a - s) 0
    else if s + 1 ≤ a ∧ a ≤ e ∧ s + 1 ≤ b ∧ b ≤ e then mget C (a - s) (b - s)
    else M a b

/-- The per-chunk loop of `get_distance_matrix_chunked`
(`mapbox_service.py`, lines 227-252): for each chunk index, call the
provider on `[depot] + chunk`; abort with `None` if the call fails,
otherwise place the chunk sub-matrix into the full matrix. -/
def assembleChunks (api : Api) (depot : Coord) (orderCoords : List Coord) :
    List Nat → Mat → Option Mat
  | [], M => some M
  | k :: ks, M =>
    match get_distance_matrix api (depot :: chunkCoords orderCoords k) with
    | none => none
    | some C => assembleChunks api depot orderCoords ks (placeChunk orderCoords.length k C M)

/-- The cross-chunk pass (`mapbox_service.py`, lines 256-269): for every
ordered pair of matrix indices `a, b ≥ 1` lying in different chunks,
`full[a, b] = full[a, 0] + full[0, b]` (the loop writes `full[i, j]` and
`full[j, i]` for `chunk(i) < chunk(j)`, which covers each such ordered pair
exactly once; it reads only the depot row and column, which this pass never
writes). -/
def crossPass (nOrders : Nat) (M : Mat) : Mat :=
  fun a b =>
    if 1 ≤ a ∧ a ≤ nOrders ∧ 1 ≤ b ∧ b ≤ nOrders ∧
        (a - 1) / chunkSize ≠ (b - 1) / chunkSize then
      M a 0 + M 0 b
    else M a b

/-- The set of cells that placing chunk `k` writes (the three slice
assignments of `mapbox_service.py`, lines 244-252): the depot-row slice,
the depot-column slice and the intra-chunk block. -/
def writesCell (nOrders k a b : Nat) : Prop :=
  (a = 0 ∧ chunkSize * k + 1 ≤ b ∧ b ≤ min (chunkSize * k + chunkSize) nOrders) ∨
  (b = 0 ∧ chunkSize * k + 1 ≤ a ∧ a ≤ min (chunkSize * k + chunkSize) nOrders) ∨
  (chunkSize * k + 1 ≤ a ∧ a ≤ min (chunkSize * k + chunkSize) nOrders ∧
    chunkSize * k + 1 ≤ b ∧ b ≤ min (chunkSize * k + chunkSize) nOrders)

/-- Embedding of `MapboxService.get_distance_matrix_chunked`
(`mapbox_service.py`, lines 183-274).  Single call when
`n_total ≤ 25`, otherwise chunk assembly followed by the cross-chunk
pass. -/
def get_distance_matrix_chunked (api : Api) (depot_coords : Coord)
    (order_coords : List Coord) : Option Mat :=
  let nOrders := order_coords.length
  if nOrders + 1 ≤ 25 then
    (get_distance_matrix api (depot_coords :: order_coords)).map (fun C a b => mget C a b)
  else
    (assembleChunks api depot_coords order_coords
        (List.range (numChunks nOrders)) (fun _ _ => 0)).map (crossPass nOrders)

/-! ## Clustering service (`clustering_service.py`)

The HDBSCAN library itself is external to the repository; its output — one
integer label per input point, `-1` marking outliers — is an explicit input
`hdbscanLabels` of the embedded `cluster_orders`.  The haversine distance
used by the small-cluster merge is computed with floating-point
trigonometry in the source; it is abstracted as a distance-function
parameter `dist` of the embedding. -/

/-- Arithmetic mean of a list of rationals (`np.mean`). -/
def meanQ (l : List ℚ) : ℚ := l.sum / l.length

/-- Componentwise mean of a list of coordinates
(`(np.mean([c[0] ...]), np.mean([c[1] ...]))`). -/
def meanPoint (l : List Coord) : Coord :=
  (meanQ (l.map Prod.fst), meanQ (l.map Prod.snd))

/-- Centroid of cluster `c`: mean of the coordinates whose label is `c`
(`clustering_service.py`, lines 146-150 and 290-295). -/
def clusterCentroid (coords : List Coord) (labels : List Int) (c : Int) : Coord :=
  meanPoint ((coords.zip labels).filterMap (fun pl => if pl.2 = c then some pl.1 else none))

/-- Squared planar (euclidean) distance.  `cdist(..., metric=euclidean)`
followed by `np.argmin` picks the same index as the squared distance, since
the square root is strictly monotone; ties go to the first index in both. -/
def sqDist (p q : Coord) : ℚ := (p.1 - q.1) ^ 2 + (p.2 - q.2) ^ 2

/-- Index of the first minimal element of a list (`np.argmin`). -/
def argminIdx : List ℚ → Nat
  | [] => 0
  | [_] => 0
  | x :: y :: rest =>
    let j := argminIdx (y :: rest)
    if x ≤ (y :: rest).getD j 0 then 0 else j + 1

/-- Ascending list of the distinct elements of `l` (`np.unique`). -/
def npUnique (l : List Int) : List Int := (l.insertionSort (· ≤ ·)).dedup

/-- `np.unique(labels[labels != -1])` (`clustering_service.py`, line 130). -/
def uniqueClustersNe (labels : List Int) : List Int :=
  npUnique (labels.filter (fun l => l ≠ -1))

/-- `np.unique(labels[labels >= 0])` (`clustering_service.py`, lines 182,
226 and 287). -/
def uniqueClustersGe (labels : List Int) : List Int :=
  npUnique (labels.filter (fun l => 0 ≤ l))

/-- Outlier reassignment (`clustering_service.py`, lines 152-169): every
point with HDBSCAN label `-1` is relabelled with the cluster whose centroid
is nearest in planar distance (first cluster wins ties, as `np.argmin`);
other points keep their label.  The mutation of `cluster_labels` at the
outlier indices is expressed as an index map over the whole list. -/
def reassignOutliers (coords : List Coord) (labels : List Int)
    (unique_clusters : List Int) (centroids : List (Int × Coord)) : List Int :=
  (List.range labels.length).map (fun i =>
    let l := labels.getD i 0
    if l = -1 then
      let dists := unique_clusters.map
        (fun c => sqDist (coords.getD i (0, 0)) ((centroids.lookup c).getD (0, 0)))
      unique_clusters.getD (argminIdx dists) (-1)
    else l)

/-- Mutable state of the merge loop of `merge_nearby_small_clusters`:
the labels being updated and the set of already-merged cluster ids. -/
structure MergeState where
  updatedLabels : List Int
  merged : List Int

/-- Body of the outer merge loop (`clustering_service.py`, lines 235-284)
for one candidate target cluster `c1`.  Cluster sizes are counted on the
`labels` passed into `merge_nearby_small_clusters` (computed once, lines
227-229) and centroid distances use the `centroids` dictionary passed in —
neither is updated during the loop.  Candidates are sorted by distance
(Python `list.sort` is stable; so is insertion sort).  The source also
deletes merged ids from a copy of the centroid dict (lines 282-284), which
is dead code: the returned centroids are recomputed from scratch. -/
def mergeStep (dist : Coord → Coord → ℚ) (labels : List Int)
    (centroids : List (Int × Coord)) (max_cluster_size : Nat) (max_distance_km : ℚ)
    (unique_clusters : List Int) (st : MergeState) (c1 : Int) : MergeState :=
  if c1 ∈ st.merged then st
  else if max_cluster_size ≤ labels.count c1 then st
  else
    let centroid1 := (centroids.lookup c1).getD (0, 0)
    let candidates := unique_clusters.filterMap (fun c2 =>
      if c2 = c1 ∨ c2 ∈ st.merged then none
      else if max_cluster_size ≤ labels.count c2 then none
      else
        let d := dist centroid1 ((centroids.lookup c2).getD (0, 0))
        if d ≤ max_distance_km then some (c2, d) else none)
    let sorted := candidates.insertionSort (fun x y => x.2 ≤ y.2)
    sorted.foldl (fun st2 cd =>
      if cd.1 ∈ st2.merged then st2
      else
        { updatedLabels := st2.updatedLabels.map (fun l => if l = cd.1 then c1 else l)
          merged := cd.1 :: st2.merged }) st

/-- Embedding of `ClusteringService.merge_nearby_small_clusters`
(`clustering_service.py`, lines 193-297): merge nearby small clusters into
each other (ascending cluster-id order, closest candidates first), then
recompute all centroids from the merged labels. -/
def merge_nearby_small_clusters (dist : Coord → Coord → ℚ) (coordinates : List Coord)
    (labels : List Int) (centroids : List (Int × Coord))
    (max_cluster_size : Nat) (max_distance_km : ℚ) :
    List Int × List (Int × Coord) :=
  let unique_clusters := uniqueClustersGe labels
  let final := unique_clusters.foldl
    (mergeStep dist labels centroids max_cluster_size max_distance_km unique_clusters)
    { updatedLabels := labels, merged := [] }
  let finalLabels := final.updatedLabels
  (finalLabels,
    (uniqueClustersGe finalLabels).map (fun c => (c, clusterCentroid coordinates finalLabels c)))

/-- Result dictionary of `cluster_orders` (`clustering_service.py`,
lines 65-71 and the three return sites). -/
structure ClusterResult where
  labels : List Int
  original_labels : List Int
  n_clusters : Nat
  centroids : List (Int × Coord)
  outlier_count : Nat
  deriving DecidableEq

/-- The adaptive minimum cluster size the service hands to HDBSCAN
(`clustering_service.py`, line 98, `adaptive_clustering=True` path):
`max(2, min(min_cluster_size, len(coordinates) // 20))`. -/
def hdbscanEffectiveMinClusterSize (min_cluster_size n : Nat) : Nat :=
  max 2 (min min_cluster_size (n / 20))

/-- Embedding of `ClusteringService.cluster_orders`
(`clustering_service.py`, lines 44-191).  The HDBSCAN run (lines 94-123)
is external; its label output is the parameter `hdbscanLabels`.  The
reassignment guard `outlier_count > 0 and n_clusters > 0` (line 153) is
dropped: with no `-1` labels `reassignOutliers` is the identity map, and
`n_clusters > 0` holds on this branch. -/
def cluster_orders (dist : Coord → Coord → ℚ) (coordinates : List Coord)
    (min_cluster_size : Nat) (merge_small_clusters : Bool)
    (max_cluster_size_for_merge : Nat) (max_merge_distance_km : ℚ)
    (hdbscanLabels : List Int) : ClusterResult :=
  if coordinates.length < min_cluster_size then
    -- lines 76-85: not enough points, everything in cluster 0
    { labels := List.replicate coordinates.length 0
      original_labels := List.replicate coordinates.length 0
      n_clusters := 1
      centroids := [(0, meanPoint coordinates)]
      outlier_count := 0 }
  else
    let cluster_labels := hdbscanLabels
    let outlier_count := cluster_labels.count (-1)         -- lines 126-127
    let unique_clusters := uniqueClustersNe cluster_labels -- lines 130-131
    if unique_clusters.isEmpty then
      -- lines 133-141: all points are outliers, single cluster 0
      { labels := List.replicate coordinates.length 0
        original_labels := cluster_labels
        n_clusters := 1
        centroids := [(0, meanPoint coordinates)]
        outlier_count := coordinates.length }
    else
      let centroids := unique_clusters.map
        (fun c => (c, clusterCentroid coordinates cluster_labels c)) -- lines 145-150
      let labels1 := reassignOutliers coordinates cluster_labels unique_clusters centroids
      if merge_small_clusters ∧ 1 < unique_clusters.length then      -- line 172
        let r := merge_nearby_small_clusters dist coordinates labels1 centroids
          max_cluster_size_for_merge max_merge_distance_km
        { labels := r.1
          original_labels := cluster_labels
          n_clusters := (uniqueClustersGe r.1).length                -- lines 182-183
          centroids := r.2
          outlier_count := outlier_count }
      else
        { labels := labels1
          original_labels := cluster_labels
          n_clusters := unique_clusters.length
          centroids := centroids
          outlier_count := outlier_count }

/-! ## Route optimization service (`route_optimization_service.py`)

The OR-Tools routing model and search are an external library; the solve
outcome (`routing.SolveWithParameters`) is abstracted as an `Option σ`
input and the solution walk `_extract_solution` as a function `σ →
SolveResult`.  The arc-cost callback and the no-solution handling are
repository code and are embedded directly. -/

/-- `RouteOptimizationService.CLUSTER_PENALTY`
(`route_optimization_service.py`, line 18). -/
def CLUSTER_PENALTY : Int := 1000

/-- `RouteOptimizationService.SERVICE_TIME_PER_STOP`
(`route_optimization_service.py`, line 21). -/
def SERVICE_TIME_PER_STOP : Int := 300

/-- Python `int(...)` applied to a float: truncation toward zero. -/
def pyInt (q : ℚ) : Int := q.num.tdiv q.den

/-- Embedding of the arc-cost closure `distance_callback`
(`route_optimization_service.py`, lines 81-98), expressed directly on node
indices (the source first maps OR-Tools internal indices to nodes via
`manager.IndexToNode`).  Cost is the truncated matrix entry, plus
`CLUSTER_PENALTY` when cluster labels are available, both endpoints are
order nodes, and their labels are distinct and both non-negative. -/
def distance_callback (cluster_labels : Option (List Int)) (distance_matrix : Mat)
    (from_node to_node : Nat) : Int :=
  let base_distance := pyInt (distance_matrix from_node to_node)
  match cluster_labels with
  | none => base_distance
  | some labels =>
    if 0 < from_node ∧ 0 < to_node then
      let from_cluster := labels.getD (from_node - 1) 0
      let to_cluster := labels.getD (to_node - 1) 0
      if from_cluster ≠ to_cluster ∧ 0 ≤ from_cluster ∧ 0 ≤ to_cluster then
        base_distance + CLUSTER_PENALTY
      else base_distance
    else base_distance

/-- One stop of an extracted route (`route_optimization_service.py`,
lines 207-211). -/
structure RouteStopD where
  order_id : String
  order_index : Nat
  sequence : Nat
  deriving DecidableEq

/-- One extracted route dictionary (`route_optimization_service.py`,
lines 225-231). -/
structure RouteD where
  vehicle_id : Nat
  stops : List RouteStopD
  total_distance : Int
  total_time : ℚ
  num_orders : Nat
  deriving DecidableEq

/-- The result dictionary of `RouteOptimizationService.optimize_routes`
(`route_optimization_service.py`, lines 49-55). -/
structure SolveResult where
  routes : List RouteD
  total_distance : Int
  total_time : ℚ
  solver_status : String
  num_vehicles_used : Nat
  unassigned : List Nat
  deriving DecidableEq

/-- Embedding of `RouteOptimizationService.optimize_routes`
(`route_optimization_service.py`, lines 23-173).  The model construction
and search (lines 70-157) happen inside OR-Tools; the outcome of
`routing.SolveWithParameters` is the abstract input `solve`, and
`_extract_solution` (lines 175-264, a walk over the library solution
object) is the abstract input `extract`.  The repository-owned control
flow — the zero-order early return and the no-solution result — is
embedded directly; both paths return a value, never raise. -/
def optimize_routes {σ : Type} (solve : Option σ) (extract : σ → SolveResult)
    (num_vehicles : Nat) (distance_matrix : List (List ℚ)) : SolveResult :=
  let num_locations := distance_matrix.length
  let num_orders := num_locations - 1
  if num_orders = 0 then
    -- lines 60-68
    { routes := [], total_distance := 0, total_time := 0,
      solver_status := "SUCCESS", num_vehicles_used := 0,
      unassigned := [] }
  else
    match solve with
    | some s => extract s          -- lines 160-163
    | none =>
      -- lines 164-173: no feasible solution
      { routes := [], total_distance := 0, total_time := 0,
        solver_status := "FAILED", num_vehicles_used := 0,
        unassigned := List.range num_orders }

/-! ## Route optimization endpoint (`api/v1/endpoints/route_optimization.py`)

The endpoint pieces the claims refer to: the effective minimum cluster
size (line 144), the matrix retry/exclusion loop (lines 222-330), vehicle
count resolution and validation (lines 367-399), and the final response
assembly (lines 443-543).  Database access, logging and schema transport
are outside the embedded logic; an order is its id paired with its
coordinate. -/

/-- The minimum cluster size the endpoint passes to the clustering service
(`route_optimization.py`, line 144):
`min(request.min_cluster_size, max(3, len(orders) // 30))`. -/
def endpointEffectiveMinClusterSize (min_cluster_size n : Nat) : Nat :=
  min min_cluster_size (max 3 (n / 30))

/-- The minimum cluster size the density algorithm (HDBSCAN) actually
receives: the endpoint value (line 144) further adapted by the service
(`clustering_service.py`, line 98). -/
def densityRunMinClusterSize (hint n : Nat) : Nat :=
  hdbscanEffectiveMinClusterSize (endpointEffectiveMinClusterSize hint n) n

/-- Vehicle-count resolution (`route_optimization.py`, lines 367-392).
`clusterLabelsPresent` models `cluster_labels is not None`;
`total_drivers_needed` and `n_clusters` model
`cluster_metadata.get("total_drivers_needed")` (truthy test: present and
non-zero) and `cluster_metadata.get("n_clusters", 0)`.  In the fallback, a
caller-requested count is used when truthy (Python: `None` and `0` are
falsy, negative values are truthy). -/
def resolveNumVehicles (clusterLabelsPresent : Bool) (total_drivers_needed : Option Nat)
    (n_clusters : Nat) (requested : Option Int) (available_drivers : Int)
    (num_orders : Nat) : Int :=
  if clusterLabelsPresent ∧ total_drivers_needed.getD 0 ≠ 0 then
    min (total_drivers_needed.getD 0 : Int) available_drivers
  else if clusterLabelsPresent ∧ 0 < n_clusters then
    min (n_clusters : Int) available_drivers
  else
    match requested with
    | some v => if v ≠ 0 then v else min available_drivers (max 1 ((num_orders / 50 : Nat) : Int))
    | none => min available_drivers (max 1 ((num_orders / 50 : Nat) : Int))

/-- Outcome of the vehicle-count validation (`route_optimization.py`,
lines 394-399): a count `≤ 0` raises HTTP 400 before the solver runs. -/
inductive VehicleCheck where
  | rejected : VehicleCheck
  | accepted (n : Int) : VehicleCheck
  deriving DecidableEq

/-- The validation step itself (`route_optimization.py`, lines 394-399). -/
def checkNumVehicles (n : Int) : VehicleCheck :=
  if n ≤ 0 then .rejected else .accepted n

/-- An order as the endpoint sees it: external id plus coordinate. -/
abbrev Order := String × Coord

/-- The per-order connectivity probe of the exclusion protocol
(`route_optimization.py`, lines 268-272): one depot-order matrix call;
the order is kept iff the call returns a matrix. -/
def probeOrder (api : Api) (depot : Coord) (o : Order) : Bool :=
  (get_distance_matrix api [depot, o.2]).isSome

/-- One matrix-fetch attempt (`route_optimization.py`, lines 229-243):
the standard single call for at most 24 orders, the chunked method
otherwise. -/
def fetchDistanceMatrix (api : Api) (depot : Coord) (validOrders : List Order) : Option Mat :=
  if validOrders.length ≤ 24 then
    (get_distance_matrix api (depot :: validOrders.map Prod.snd)).map (fun C a b => mget C a b)
  else
    get_distance_matrix_chunked api depot (validOrders.map Prod.snd)

/-- How the matrix retry/exclusion loop exits (`route_optimization.py`,
lines 222-330): with a matrix (`break`, line 255), with one of the two
structured `NO_VALID_ORDERS` early returns (lines 291-303 and 313-325), or
by raising HTTP 500 (lines 306-309 and 326-329). -/
inductive FetchOutcome where
  | success (matrix : Mat) (validOrders : List Order) (excluded : List Order) : FetchOutcome
  | allExcluded (excluded : List Order) : FetchOutcome
  | noneRoutable (excluded : List Order) : FetchOutcome
  | httpError : FetchOutcome

/-- Embedding of the retry/exclusion loop (`route_optimization.py`,
lines 222-330), with `max_retries = 2`.  `remaining` counts the loop
iterations still available, so the source condition
`attempt < max_retries - 1` ("not the last attempt") is `1 ≤ remaining`
after peeling the current iteration.  A failed fetch on a non-final
attempt with more than one order probes every order individually,
excludes the failures, and retries with the survivors; the loop can only
exhaust `remaining` through the explicit return/raise branches, so the
fuel-zero case is unreachable. -/
def matrixRetryLoop (api : Api) (depot : Coord) :
    Nat → List Order → List Order → FetchOutcome
  | 0, _, _ => .httpError
  | remaining + 1, valid, excluded =>
    match fetchDistanceMatrix api depot valid with
    | some M => .success M valid excluded
    | none =>
      if 1 ≤ remaining ∧ 1 < valid.length then
        let newValid := valid.filter (probeOrder api depot)
        let newExcluded := excluded ++ valid.filter (fun o => !(probeOrder api depot o))
        if newValid.length < valid.length then
          if newValid.length = 0 then .allExcluded newExcluded
          else matrixRetryLoop api depot remaining newValid newExcluded
        else .httpError
      else
        if valid.length = 0 then .noneRoutable excluded
        else .httpError

/-- The metadata keys of the final result that can mention exclusions or
carry per-order data (`route_optimization.py`: the success-path metadata
dict at lines 523-542 and the failure-path dicts at lines 302 and 324).
The failure paths store an error message and the *count* of excluded
orders; no path stores a list of excluded order ids. -/
structure EndpointMetadata where
  error : Option String := none
  excluded_orders : Option Nat := none
  cluster_assignments : Option (List (String × Int)) := none
  deriving DecidableEq

/-- The claim-relevant fields of `schemas.RouteOptimizationResult` as the
endpoint fills them. -/
structure EndpointResult where
  success : Bool
  total_routes : Nat
  total_orders : Nat
  routes_order_ids : List (List String)
  unassigned_orders : List String
  solver_status : String
  metadata : EndpointMetadata
  deriving DecidableEq

/-- Success-path response assembly (`route_optimization.py`,
lines 443-543) for a run without clustering: routes carry the ids of the
(still valid) orders they stop at, `unassigned_orders` maps solver
unassigned indices through the valid-order id list (lines 485-490), and
the metadata carries no error, no excluded count and no cluster
assignments. -/
def buildSuccessResult (validOrders : List Order) (opt : SolveResult) : EndpointResult :=
  let order_ids_list := validOrders.map Prod.fst
  let unassigned_order_ids := opt.unassigned.filterMap (fun idx => order_ids_list.get? idx)
  { success := decide ((opt.solver_status = "SUCCESS" ∨ opt.solver_status = "ROUTING_SUCCESS" ∨
      opt.solver_status = "PARTIAL_SUCCESS") ∧ opt.routes ≠ [])
    total_routes := opt.routes.length
    total_orders := validOrders.length - unassigned_order_ids.length
    routes_order_ids := opt.routes.map
      (fun r => r.stops.filterMap (fun s => order_ids_list.get? s.order_index))
    unassigned_orders := unassigned_order_ids
    solver_status := opt.solver_status
    metadata := {} }

/-- The `NO_VALID_ORDERS` result of lines 291-303: the excluded orders
are reported through `unassigned_orders` plus a count in the metadata. -/
def allExcludedResult (excluded : List Order) : EndpointResult :=
  { success := false
    total_routes := 0
    total_orders := 0
    routes_order_ids := []
    unassigned_orders := excluded.map Prod.fst
    solver_status := "NO_VALID_ORDERS"
    metadata := { error := some "All selected orders are unroutable from this depot"
                  excluded_orders := some excluded.length } }

/-- The `NO_VALID_ORDERS` result of lines 313-325 (empty valid set on the
final attempt): empty `unassigned_orders`, error plus count in the
metadata. -/
def noneRoutableResult (excluded : List Order) : EndpointResult :=
  { success := false
    total_routes := 0
    total_orders := 0
    routes_order_ids := []
    unassigned_orders := []
    solver_status := "NO_VALID_ORDERS"
    metadata := { error := some "No orders could be routed"
                  excluded_orders := some excluded.length } }

/-- The endpoint pipeline from the matrix phase to the response, for a
run without clustering (`route_optimization.py`, lines 222-543), with the
solver abstracted as a function of the matrix and the surviving orders.
`none` models the raised HTTP 500 (no result object). -/
def endpointOptimizeNoClustering (api : Api) (solver : Mat → List Order → SolveResult)
    (depot : Coord) (orders : List Order) : Option EndpointResult :=
  match matrixRetryLoop api depot 2 orders [] with
  | .success M valid _excluded => some (buildSuccessResult valid (solver M valid))
  | .allExcluded excluded => some (allExcludedResult excluded)
  | .noneRoutable excluded => some (noneRoutableResult excluded)
  | .httpError => none

/-! ## Concrete provider and solver instances

Used by witnesses and counterexamples to instantiate the abstract external
collaborators. -/

/-- A well-behaved provider: always answers `Ok` with a square matrix of
ones of the requested size. -/
def okApi : Api := fun cs =>
  { code := "Ok"
    durations := List.replicate cs.length (List.replicate cs.length (.num 1)) }

/-- A provider for which exactly the requests touching the coordinate `b`
fail, and all others behave like `okApi`. -/
def badApi (b : Coord) : Api := fun cs =>
  if b ∈ cs then { code := "InvalidInput", durations := [] } else okApi cs

/-- A solver outcome that routes every surviving order and leaves nothing
unassigned (abstract stand-in for a fully successful OR-Tools solve). -/
def allAssignedSolver : Mat → List Order → SolveResult := fun _ valid =>
  { routes := [{ vehicle_id := 0
                 stops := (List.range valid.length).map
                   (fun i => { order_id := (valid.getD i ("", (0, 0))).1
                               order_index := i, sequence := i })
                 total_distance := 0, total_time := 0, num_orders := valid.length }]
    total_distance := 0, total_time := 0, solver_status := "SUCCESS"
    num_vehicles_used := 1, unassigned := [] }

/-- A concrete distance function on coordinates: absolute longitude
difference.  For points on the equator this is proportional to the true
haversine distance, and it is a (pseudo)metric, so it is a faithful stand-in
for `haversine_distance_km` in merge counterexamples. -/
def lonDist : Coord → Coord → ℚ := fun p q => |p.2 - q.2|

/-- A provider that answers every request with an all-zero 2x2 matrix and
code `Ok`. -/
def zeroApi : Api := fun _ =>
  { code := "Ok", durations := [[.num 0, .num 0], [.num 0, .num 0]] }

/-- A provider that answers every request with a 1x1 matrix containing a
NaN. -/
def nanApi : Api := fun _ => { code := "Ok", durations := [[.nan]] }

/-- The square all-ones rational matrix `okApi` responses induce. -/
def onesMatrix (n : Nat) : List (List ℚ) :=
  List.replicate n (List.replicate n 1)

/-- The always-failing coordinate of the retry/exclusion scenario. -/
def cexBadCoord : Coord := (50, 50)

/-- Two orders, the first of which sits at the always-failing coordinate. -/
def cexOrders : List Order := [("bad-1", cexBadCoord), ("good-1", (1, 1))]

/-- Six points on a line: clusters `0`, `1`, `2` of two points each at
longitudes `0`, `18` and `28` (units chosen so that all values are
integers). -/
def mergeCexCoords : List Coord :=
  [(0, 0), (0, 0), (0, 18), (0, 18), (0, 28), (0, 28)]

/-- Labels of `mergeCexCoords`. -/
def mergeCexLabels : List Int := [0, 0, 1, 1, 2, 2]

/-- Centroids of `mergeCexCoords` under `mergeCexLabels`. -/
def mergeCexCentroids : List (Int × Coord) :=
  [(0, (0, 0)), (1, (0, 18)), (2, (0, 28))]

/-- A concrete distance function given by a lookup table on the centroids
arising in the merge counterexample: `18` between the cluster-0 and
cluster-1 centroids, `28` between cluster 0 and cluster 2, `19` between
the merged centroid `(0, 9)` and cluster 2, `0` on the diagonal and `100`
elsewhere.  (These are the distances of the collinear configuration
`0, 18, 28`; a table is used because trigonometric evaluation is outside
the kernel.) -/
def cexDist : Coord → Coord → ℚ := fun p q =>
  if p = q then 0
  else if (p = (0, 0) ∧ q = (0, 18)) ∨ (p = (0, 18) ∧ q = (0, 0)) then 18
  else if (p = (0, 0) ∧ q = (0, 28)) ∨ (p = (0, 28) ∧ q = (0, 0)) then 28
  else if p = (0, 9) ∧ q = (0, 28) then 19
  else 100

/-! ## Supporting lemmas -/

theorem argminIdx_lt (l : List ℚ) (h : l ≠ []) : argminIdx l < l.length := by
  induction l with
  | nil => simp at h
  | cons x xs ih =>
    cases xs with
    | nil => simp [argminIdx]
    | cons y rest =>
      have ih2 := ih (by simp)
      simp only [argminIdx]
      split_ifs
      · simp
      · exact Nat.succ_lt_succ ih2

theorem argminIdx_min (l : List ℚ) : ∀ k, k < l.length →
    l.getD (argminIdx l) 0 ≤ l.getD k 0 := by
  induction l with
  | nil => intro k hk; simp at hk
  | cons x xs ih =>
    cases xs with
    | nil =>
      intro k hk
      have hk0 : k = 0 := by simpa using Nat.lt_one_iff.mp (by simpa using hk)
      subst hk0
      simp [argminIdx]
    | cons y rest =>
      intro k hk
      simp only [argminIdx]
      split_ifs with hx
      · cases k with
        | zero => simp
        | succ k2 =>
          have hk2 : k2 < (y :: rest).length := by simpa using hk
          simp only [List.getD_cons_zero, List.getD_cons_succ]
          exact le_trans hx (ih k2 hk2)
      · cases k with
        | zero =>
          simp only [List.getD_cons_zero, List.getD_cons_succ]
          exact le_of_lt (lt_of_not_le hx)
        | succ k2 =>
          have hk2 : k2 < (y :: rest).length := by simpa using hk
          simp only [List.getD_cons_succ]
          exact ih k2 hk2

theorem mem_npUnique {c : Int} {l : List Int} : c ∈ npUnique l ↔ c ∈ l := by
  unfold npUnique
  rw [List.mem_dedup]
  exact (List.perm_insertionSort _ l).mem_iff

theorem mem_uniqueClustersNe {c : Int} {l : List Int} (h : c ∈ uniqueClustersNe l) :
    c ∈ l ∧ c ≠ -1 := by
  have h2 := mem_npUnique.mp h
  rw [List.mem_filter] at h2
  exact ⟨h2.1, by simpa using h2.2⟩

theorem mem_uniqueClustersGe {c : Int} {l : List Int} (h : c ∈ uniqueClustersGe l) :
    c ∈ l ∧ 0 ≤ c := by
  have h2 := mem_npUnique.mp h
  rw [List.mem_filter] at h2
  exact ⟨h2.1, by simpa using h2.2⟩

theorem lookup_map_self (l : List Int) (f : Int → Coord) (c : Int) (hc : c ∈ l) :
    (l.map (fun x => (x, f x))).lookup c = some (f c) := by
  induction l with
  | nil => simp at hc
  | cons a l ih =>
    simp only [List.map_cons, List.lookup]
    by_cases hca : c = a
    · subst hca
      simp
    · have hbeq : (c == a) = false := beq_eq_false_iff_ne.mpr hca
      rw [hbeq]
      exact ih (by rcases List.mem_cons.mp hc with h | h; exact absurd h hca; exact h)

theorem foldl_preserves {α β : Type} (P : β → Prop) (f : β → α → β) :
    ∀ (l : List α) (init : β), P init → (∀ b, ∀ a ∈ l, P b → P (f b a)) →
      P (l.foldl f init) := by
  intro l
  induction l with
  | nil => intro init h _; exact h
  | cons a l ih =>
    intro init h hstep
    exact ih (f init a) (hstep init a (by simp) h)
      (fun b a2 ha2 hb => hstep b a2 (by simp [ha2]) hb)

/-- The first component returned by the merge step is the label list of
the final fold state (by definition). -/
theorem merge_fst_eq (dist : Coord → Coord → ℚ) (coords : List Coord) (labels : List Int)
    (cents : List (Int × Coord)) (mcs : Nat) (mdk : ℚ) :
    (merge_nearby_small_clusters dist coords labels cents mcs mdk).1 =
      ((uniqueClustersGe labels).foldl
        (mergeStep dist labels cents mcs mdk (uniqueClustersGe labels))
        { updatedLabels := labels, merged := [] }).updatedLabels := rfl

/-- Merging never introduces a negative label: every relabelling target is
an element of `uniqueClustersGe` of the input labels. -/
theorem merge_labels_nonneg (dist : Coord → Coord → ℚ) (coords : List Coord)
    (labels : List Int) (cents : List (Int × Coord)) (mcs : Nat) (mdk : ℚ)
    (h : ∀ x ∈ labels, 0 ≤ x) :
    ∀ x ∈ (merge_nearby_small_clusters dist coords labels cents mcs mdk).1, 0 ≤ x := by
  rw [merge_fst_eq]
  refine foldl_preserves (fun st : MergeState => ∀ x ∈ st.updatedLabels, 0 ≤ x) _ _ _ h ?_
  intro st c1 hc1 hst
  unfold mergeStep
  split_ifs with h1 h2
  · exact hst
  · exact hst
  · refine foldl_preserves (fun st2 : MergeState => ∀ x ∈ st2.updatedLabels, 0 ≤ x) _ _ _ hst ?_
    intro st2 cd hcd hst2
    split_ifs with h3
    · exact hst2
    · intro x hx
      simp only [List.mem_map] at hx
      obtain ⟨y, hy, hxy⟩ := hx
      subst hxy
      by_cases hyc : y = cd.1
      · simp only [hyc, if_pos rfl]
        exact (mem_uniqueClustersGe hc1).2
      · rw [if_neg hyc]
        exact hst2 y hy

/-- Entry `i` of the outlier-reassignment result. -/
theorem reassignOutliers_getD (coords : List Coord) (raw : List Int)
    (uc : List Int) (cents : List (Int × Coord)) (i : Nat) (hi : i < raw.length) :
    (reassignOutliers coords raw uc cents).getD i 0 =
      if raw.getD i 0 = -1 then
        uc.getD (argminIdx (uc.map (fun c =>
          sqDist (coords.getD i (0, 0)) ((cents.lookup c).getD (0, 0))))) (-1)
      else raw.getD i 0 := by
  unfold reassignOutliers
  rw [List.getD_eq_getElem _ _ (by simpa using hi), List.getElem_map, List.getElem_range]

/-- After outlier reassignment every label is non-negative, provided the
raw labels are `≥ -1` and the cluster-id list is non-empty with
non-negative entries. -/
theorem reassignOutliers_nonneg (coords : List Coord) (raw : List Int)
    (uc : List Int) (cents : List (Int × Coord))
    (hge : ∀ l ∈ raw, -1 ≤ l) (hucne : uc ≠ []) (hucmem : ∀ c ∈ uc, 0 ≤ c) :
    ∀ x ∈ reassignOutliers coords raw uc cents, 0 ≤ x := by
  intro x hx
  have hlen : (reassignOutliers coords raw uc cents).length = raw.length := by
    simp [reassignOutliers]
  rw [List.mem_iff_getElem] at hx
  obtain ⟨i, hi, hx⟩ := hx
  have hi2 : i < raw.length := hlen ▸ hi
  have hval : (reassignOutliers coords raw uc cents).getD i 0 = x := by
    rw [List.getD_eq_getElem _ _ hi]
    exact hx
  rw [reassignOutliers_getD coords raw uc cents i hi2] at hval
  by_cases hneg : raw.getD i 0 = -1
  · rw [if_pos hneg] at hval
    subst hval
    have hdsne : uc.map (fun c =>
        sqDist (coords.getD i (0, 0)) ((cents.lookup c).getD (0, 0))) ≠ [] := by
      simpa using hucne
    have hlt : argminIdx (uc.map (fun c =>
        sqDist (coords.getD i (0, 0)) ((cents.lookup c).getD (0, 0)))) < uc.length := by
      have := argminIdx_lt _ hdsne
      simpa using this
    rw [List.getD_eq_getElem _ _ hlt]
    exact hucmem _ (List.getElem_mem hlt)
  · rw [if_neg hneg] at hval
    subst hval
    have hmem : raw.getD i 0 ∈ raw := by
      rw [List.getD_eq_getElem _ _ hi2]
      exact List.getElem_mem hi2
    have := hge _ hmem
    omega

theorem gdm_congr (api1 api2 : Api) (cs : List Coord) (h : api1 cs = api2 cs) :
    get_distance_matrix api1 cs = get_distance_matrix api2 cs := by
  unfold get_distance_matrix
  rw [h]

theorem gdm_okApi (cs : List Coord) (h2 : 2 ≤ cs.length) (h25 : cs.length ≤ 25)
    (hv : ∀ c ∈ cs, validCoord c = true) :
    get_distance_matrix okApi cs = some (onesMatrix cs.length) := by
  unfold get_distance_matrix
  rw [if_neg (by omega), if_neg (by omega),
    if_neg (not_not_intro (List.all_eq_true.mpr hv)),
    if_neg (by simp [okApi]),
    if_neg (by
      simp only [okApi, List.isEmpty_eq_true, List.length_replicate, ne_eq, not_or, not_not]
      refine ⟨fun hnil => ?_, trivial⟩
      have hl := congrArg List.length hnil
      simp only [List.length_replicate, List.length_nil] at hl
      omega),
    if_neg (by simp [okApi, DVal.isBad]),
    if_neg (by simp [okApi])]
  simp [okApi, onesMatrix, DVal.toQ]

theorem gdm_badApi_none (b : Coord) (cs : List Coord) (h : b ∈ cs) :
    get_distance_matrix (badApi b) cs = none := by
  have hresp : badApi b cs = { code := "InvalidInput", durations := [] } := by
    simp [badApi, h]
  unfold get_distance_matrix
  rw [hresp]
  split_ifs with h1 h2 h3 h4 h5 h6 h7
  any_goals rfl
  exact absurd (Or.inl rfl) h5

theorem gdm_badApi_ok (b : Coord) (cs : List Coord) (hb : b ∉ cs) (h2 : 2 ≤ cs.length)
    (h25 : cs.length ≤ 25) (hv : ∀ c ∈ cs, validCoord c = true) :
    get_distance_matrix (badApi b) cs = some (onesMatrix cs.length) := by
  rw [gdm_congr (badApi b) okApi cs (by simp [badApi, hb])]
  exact gdm_okApi cs h2 h25 hv

theorem chunkCoords_length (oc : List Coord) (k : Nat) :
    (chunkCoords oc k).length = min chunkSize (oc.length - chunkSize * k) := by
  simp [chunkCoords]

theorem mem_chunkCoords {oc : List Coord} {c : Coord} {k : Nat}
    (h : c ∈ chunkCoords oc k) : c ∈ oc := by
  unfold chunkCoords at h
  exact List.mem_of_mem_drop (List.mem_of_mem_take h)

theorem getElem_mem_chunkCoords (oc : List Coord) (idx : Nat) (h : idx < oc.length) :
    oc[idx] ∈ chunkCoords oc (idx / chunkSize) := by
  unfold chunkCoords
  have hj : idx - chunkSize * (idx / chunkSize) <
      ((oc.drop (chunkSize * (idx / chunkSize))).take chunkSize).length := by
    simp only [List.length_take, List.length_drop, chunkSize]
    omega
  have hval : ((oc.drop (chunkSize * (idx / chunkSize))).take
      chunkSize)[idx - chunkSize * (idx / chunkSize)] = oc[idx] := by
    rw [List.getElem_take, List.getElem_drop]
    congr 1
    simp only [chunkSize]
    omega
  rw [← hval]
  exact List.getElem_mem hj

theorem assembleChunks_isSome (api : Api) (depot : Coord) (oc : List Coord)
    (ks : List Nat)
    (h : ∀ k ∈ ks, (get_distance_matrix api (depot :: chunkCoords oc k)).isSome) :
    ∀ M, (assembleChunks api depot oc ks M).isSome := by
  induction ks with
  | nil => intro M; simp [assembleChunks]
  | cons k ks ih =>
    intro M
    obtain ⟨C, hC⟩ := Option.isSome_iff_exists.mp (h k (by simp))
    simp only [assembleChunks, hC]
    exact ih (fun k2 hk2 => h k2 (by simp [hk2])) _

theorem assembleChunks_none (api : Api) (depot : Coord) (oc : List Coord)
    (ks : List Nat) (k : Nat) (hk : k ∈ ks)
    (hnone : get_distance_matrix api (depot :: chunkCoords oc k) = none) :
    ∀ M, assembleChunks api depot oc ks M = none := by
  induction ks with
  | nil => simp at hk
  | cons k2 ks ih =>
    intro M
    rcases List.mem_cons.mp hk with he | hm
    · subst he
      simp only [assembleChunks, hnone]
    · cases hC : get_distance_matrix api (depot :: chunkCoords oc k2) with
      | none => simp only [assembleChunks, hC]
      | some C =>
        simp only [assembleChunks, hC]
        exact ih hm _

theorem placeChunk_eq_of_not_writes (n k : Nat) (C : List (List ℚ)) (M : Mat)
    (a b : Nat) (h : ¬ writesCell n k a b) : placeChunk n k C M a b = M a b := by
  unfold writesCell at h
  simp only [placeChunk]
  split_ifs with h1 h2 h3
  · exact absurd (Or.inl h1) h
  · exact absurd (Or.inr (Or.inl h2)) h
  · exact absurd (Or.inr (Or.inr h3)) h
  · rfl

theorem placeChunk_indep (n k : Nat) (C : List (List ℚ)) (a b : Nat)
    (hw : writesCell n k a b) (M N : Mat) :
    placeChunk n k C M a b = placeChunk n k C N a b := by
  unfold writesCell at hw
  simp only [placeChunk]
  split_ifs with h1 h2 h3
  · rfl
  · rfl
  · rfl
  · exact absurd hw (by tauto)

theorem placeChunk_depotRow (n k : Nat) (C : List (List ℚ)) (M : Mat) (b : Nat)
    (h1 : chunkSize * k + 1 ≤ b) (h2 : b ≤ min (chunkSize * k + chunkSize) n) :
    placeChunk n k C M 0 b = mget C 0 (b - chunkSize * k) := by
  simp only [placeChunk]
  rw [if_pos (by simp [h1, h2])]

theorem placeChunk_depotCol (n k : Nat) (C : List (List ℚ)) (M : Mat) (a : Nat)
    (h1 : chunkSize * k + 1 ≤ a) (h2 : a ≤ min (chunkSize * k + chunkSize) n) :
    placeChunk n k C M a 0 = mget C (a - chunkSize * k) 0 := by
  simp only [placeChunk]
  rw [if_neg (by omega), if_pos (by simp [h1, h2])]

theorem placeChunk_intra (n k : Nat) (C : List (List ℚ)) (M : Mat) (a b : Nat)
    (ha1 : chunkSize * k + 1 ≤ a) (ha2 : a ≤ min (chunkSize * k + chunkSize) n)
    (hb1 : chunkSize * k + 1 ≤ b) (hb2 : b ≤ min (chunkSize * k + chunkSize) n) :
    placeChunk n k C M a b = mget C (a - chunkSize * k) (b - chunkSize * k) := by
  simp only [placeChunk]
  rw [if_neg (by omega), if_neg (by omega), if_pos ⟨ha1, ha2, hb1, hb2⟩]

theorem writesCell_disjoint (n k k2 a b : Nat) (hne : k ≠ k2)
    (hw : writesCell n k a b) : ¬ writesCell n k2 a b := by
  unfold writesCell chunkSize at *
  omega

theorem assembleChunks_preserve (api : Api) (depot : Coord) (oc : List Coord)
    (ks : List Nat) (a b : Nat)
    (hsafe : ∀ k ∈ ks, ¬ writesCell oc.length k a b) :
    ∀ M M', assembleChunks api depot oc ks M = some M' → M' a b = M a b := by
  induction ks with
  | nil =>
    intro M M' h
    simp only [assembleChunks, Option.some_inj] at h
    rw [← h]
  | cons k ks ih =>
    intro M M' h
    cases hC : get_distance_matrix api (depot :: chunkCoords oc k) with
    | none => simp [assembleChunks, hC] at h
    | some C =>
      simp only [assembleChunks, hC] at h
      have hrec := ih (fun k2 hk2 => hsafe k2 (by simp [hk2])) _ _ h
      rw [hrec, placeChunk_eq_of_not_writes _ _ _ _ _ _ (hsafe k (by simp))]

theorem assembleChunks_chunk_cell (api : Api) (depot : Coord) (oc : List Coord)
    (ks : List Nat) (k : Nat) (hk : k ∈ ks) (hnd : ks.Nodup) (a b : Nat)
    (hw : writesCell oc.length k a b) :
    ∀ M M', assembleChunks api depot oc ks M = some M' →
      ∃ C, get_distance_matrix api (depot :: chunkCoords oc k) = some C ∧
        ∀ N : Mat, M' a b = placeChunk oc.length k C N a b := by
  induction ks with
  | nil => simp at hk
  | cons k2 ks ih =>
    intro M M' h
    cases hC : get_distance_matrix api (depot :: chunkCoords oc k2) with
    | none => simp [assembleChunks, hC] at h
    | some C =>
      simp only [assembleChunks, hC] at h
      rcases List.mem_cons.mp hk with he | hm
      · subst he
        have hnotin : k ∉ ks := (List.nodup_cons.mp hnd).1
        refine ⟨C, hC, fun N => ?_⟩
        have hpres := assembleChunks_preserve api depot oc ks a b
          (fun k3 hk3 =>
            writesCell_disjoint _ _ _ _ _
              (fun he2 => hnotin (by rw [he2]; exact hk3)) hw) _ _ h
        rw [hpres, placeChunk_indep _ _ _ _ _ hw]
      · exact ih hm (List.nodup_cons.mp hnd).2 _ _ h

theorem fetchDistanceMatrix_none_of_bad (api : Api) (depot b : Coord)
    (valid : List Order)
    (H1 : ∀ cs : List Coord, b ∈ cs → get_distance_matrix api cs = none)
    (hmem : b ∈ valid.map Prod.snd) :
    fetchDistanceMatrix api depot valid = none := by
  unfold fetchDistanceMatrix
  split_ifs with hle
  · rw [H1 _ (List.mem_cons_of_mem _ hmem)]
    rfl
  · simp only [get_distance_matrix_chunked]
    rw [if_neg (by simp only [List.length_map]; omega)]
    obtain ⟨idx, hidx, hb⟩ := List.mem_iff_getElem.mp hmem
    have hkmem : idx / chunkSize ∈ List.range (numChunks (valid.map Prod.snd).length) := by
      rw [List.mem_range]
      simp only [numChunks, chunkSize] at *
      omega
    have hchunkmem : b ∈ chunkCoords (valid.map Prod.snd) (idx / chunkSize) := by
      rw [← hb]
      exact getElem_mem_chunkCoords _ idx hidx
    rw [assembleChunks_none api depot _ _ _ hkmem
      (H1 _ (List.mem_cons_of_mem _ hchunkmem)) _]
    rfl

theorem fetchDistanceMatrix_isSome (api : Api) (depot b : Coord) (valid : List Order)
    (H2 : ∀ cs : List Coord, b ∉ cs → 2 ≤ cs.length → cs.length ≤ 25 →
      (∀ c ∈ cs, validCoord c = true) → (get_distance_matrix api cs).isSome)
    (hd : validCoord depot = true) (hdb : depot ≠ b)
    (hgood : ∀ o ∈ valid, validCoord o.2 = true ∧ o.2 ≠ b)
    (hne : valid ≠ []) :
    (fetchDistanceMatrix api depot valid).isSome := by
  have hvne : 1 ≤ valid.length := List.length_pos.mpr hne
  have hnb : b ∉ valid.map Prod.snd := by
    intro hmem
    simp only [List.mem_map] at hmem
    obtain ⟨o, ho, hob⟩ := hmem
    exact (hgood o ho).2 hob
  have hval : ∀ c ∈ valid.map Prod.snd, validCoord c = true := by
    intro c hc
    simp only [List.mem_map] at hc
    obtain ⟨o, ho, rfl⟩ := hc
    exact (hgood o ho).1
  unfold fetchDistanceMatrix
  split_ifs with hle
  · have hs := H2 (depot :: valid.map Prod.snd)
      (by
        intro hmem
        rcases List.mem_cons.mp hmem with he | hm
        · exact hdb he.symm
        · exact hnb hm)
      (by simp only [List.length_cons, List.length_map]; omega)
      (by simp only [List.length_cons, List.length_map]; omega)
      (by
        intro c hc
        rcases List.mem_cons.mp hc with he | hm
        · subst he; exact hd
        · exact hval _ hm)
    obtain ⟨C, hC⟩ := Option.isSome_iff_exists.mp hs
    rw [hC]
    rfl
  · simp only [get_distance_matrix_chunked]
    rw [if_neg (by simp only [List.length_map]; omega)]
    have hall : ∀ k ∈ List.range (numChunks (valid.map Prod.snd).length),
        (get_distance_matrix api (depot :: chunkCoords (valid.map Prod.snd) k)).isSome := by
      intro k hk
      rw [List.mem_range] at hk
      have hcl := chunkCoords_length (valid.map Prod.snd) k
      apply H2
      · intro hmem
        rcases List.mem_cons.mp hmem with he | hm
        · exact hdb he.symm
        · exact hnb (mem_chunkCoords hm)
      · simp only [List.length_cons]
        simp only [chunkSize, List.length_map] at hcl
        simp only [numChunks, chunkSize, List.length_map] at hk
        omega
      · simp only [List.length_cons]
        simp only [chunkSize, List.length_map] at hcl
        omega
      · intro c hc
        rcases List.mem_cons.mp hc with he | hm
        · subst he; exact hd
        · exact hval _ (mem_chunkCoords hm)
    obtain ⟨M0, hM0⟩ := Option.isSome_iff_exists.mp
      (assembleChunks_isSome api depot _ _ hall _)
    rw [hM0]
    rfl

/-- One unfolding step of the retry loop on positive fuel. -/
theorem matrixRetryLoop_succ (api : Api) (depot : Coord) (remaining : Nat)
    (valid excluded : List Order) :
    matrixRetryLoop api depot (remaining + 1) valid excluded =
      match fetchDistanceMatrix api depot valid with
      | some M => .success M valid excluded
      | none =>
        if 1 ≤ remaining ∧ 1 < valid.length then
          let newValid := valid.filter (probeOrder api depot)
          let newExcluded := excluded ++ valid.filter (fun o => !(probeOrder api depot o))
          if newValid.length < valid.length then
            if newValid.length = 0 then .allExcluded newExcluded
            else matrixRetryLoop api depot remaining newValid newExcluded
          else .httpError
        else
          if valid.length = 0 then .noneRoutable excluded
          else .httpError := rfl

/-- Branch characterization of the label component of `cluster_orders`. -/
theorem cluster_orders_labels_eq (dist : Coord → Coord → ℚ) (coords : List Coord)
    (minCS : Nat) (mflag : Bool) (mcs : Nat) (mdk : ℚ) (raw : List Int) :
    (cluster_orders dist coords minCS mflag mcs mdk raw).labels =
      if coords.length < minCS then List.replicate coords.length 0
      else if (uniqueClustersNe raw).isEmpty then List.replicate coords.length 0
      else if mflag ∧ 1 < (uniqueClustersNe raw).length then
        (merge_nearby_small_clusters dist coords
          (reassignOutliers coords raw (uniqueClustersNe raw)
            ((uniqueClustersNe raw).map (fun c => (c, clusterCentroid coords raw c))))
          ((uniqueClustersNe raw).map (fun c => (c, clusterCentroid coords raw c)))
          mcs mdk).1
      else reassignOutliers coords raw (uniqueClustersNe raw)
        ((uniqueClustersNe raw).map (fun c => (c, clusterCentroid coords raw c))) := by
  simp only [cluster_orders]
  split_ifs <;> rfl

/-! ## Theorems -/

/-- C1: when the depot plus orders exceed the 25-coordinate limit and the
chunked assembly succeeds, every entry for a pair of orders in the same
chunk equals the corresponding entry of that chunk's provider sub-matrix
(the matrix of the single direct call `[depot] + chunk`), and every entry
for a pair of orders in different chunks equals the first order's time to
the depot plus the depot's time to the second order, both of which are the
corresponding entries of the respective chunk sub-matrices. -/
theorem C1_chunked_assembly (api : Api) (depot : Coord) (oc : List Coord) (M : Mat)
    (hlen : 25 ≤ oc.length)
    (hM : get_distance_matrix_chunked api depot oc = some M)
    (i j : Nat) (hi : i < oc.length) (hj : j < oc.length) :
    (i / chunkSize = j / chunkSize →
      ∃ C, get_distance_matrix api (depot :: chunkCoords oc (i / chunkSize)) = some C ∧
        M (i + 1) (j + 1) = mget C (i % chunkSize + 1) (j % chunkSize + 1)) ∧
    (i / chunkSize ≠ j / chunkSize →
      M (i + 1) (j + 1) = M (i + 1) 0 + M 0 (j + 1) ∧
      (∃ C, get_distance_matrix api (depot :: chunkCoords oc (i / chunkSize)) = some C ∧
        M (i + 1) 0 = mget C (i % chunkSize + 1) 0) ∧
      (∃ C, get_distance_matrix api (depot :: chunkCoords oc (j / chunkSize)) = some C ∧
        M 0 (j + 1) = mget C 0 (j % chunkSize + 1))) := by
  simp only [get_distance_matrix_chunked] at hM
  rw [if_neg (by omega)] at hM
  obtain ⟨M0, hasm, hMc⟩ := Option.map_eq_some'.mp hM
  subst hMc
  have hnd := List.nodup_range (numChunks oc.length)
  have hmemi : i / chunkSize ∈ List.range (numChunks oc.length) := by
    rw [List.mem_range]
    unfold numChunks chunkSize
    omega
  have hmemj : j / chunkSize ∈ List.range (numChunks oc.length) := by
    rw [List.mem_range]
    unfold numChunks chunkSize
    omega
  have hcol0 : ∀ a, crossPass oc.length M0 a 0 = M0 a 0 := by
    intro a
    unfold crossPass
    rw [if_neg (by omega)]
  have hrow0 : ∀ b2, crossPass oc.length M0 0 b2 = M0 0 b2 := by
    intro b2
    unfold crossPass
    rw [if_neg (by omega)]
  constructor
  · intro hk
    have hw : writesCell oc.length (i / chunkSize) (i + 1) (j + 1) := by
      have hk2 : i / 24 = j / 24 := hk
      unfold writesCell chunkSize
      right; right
      omega
    obtain ⟨C, hC, hval⟩ :=
      assembleChunks_chunk_cell api depot oc _ _ hmemi hnd _ _ hw _ _ hasm
    refine ⟨C, hC, ?_⟩
    have hcp : crossPass oc.length M0 (i + 1) (j + 1) = M0 (i + 1) (j + 1) := by
      unfold crossPass
      rw [if_neg (fun hcond => hcond.2.2.2.2 (by simpa using hk))]
    rw [hcp, hval (fun _ _ => 0),
      placeChunk_intra _ _ _ _ _ _ (by unfold chunkSize; omega) (by unfold chunkSize; omega)
        (by unfold chunkSize at hk ⊢; omega) (by unfold chunkSize at hk ⊢; omega)]
    have e1 : (i + 1) - chunkSize * (i / chunkSize) = i % chunkSize + 1 := by
      unfold chunkSize
      omega
    have e2 : (j + 1) - chunkSize * (i / chunkSize) = j % chunkSize + 1 := by
      unfold chunkSize at hk ⊢
      omega
    rw [e1, e2]
  · intro hk
    have hws_col : writesCell oc.length (i / chunkSize) (i + 1) 0 := by
      unfold writesCell chunkSize
      right; left
      omega
    have hws_row : writesCell oc.length (j / chunkSize) 0 (j + 1) := by
      unfold writesCell chunkSize
      left
      omega
    obtain ⟨C1, hC1, hval1⟩ :=
      assembleChunks_chunk_cell api depot oc _ _ hmemi hnd _ _ hws_col _ _ hasm
    obtain ⟨C2, hC2, hval2⟩ :=
      assembleChunks_chunk_cell api depot oc _ _ hmemj hnd _ _ hws_row _ _ hasm
    have hcp : crossPass oc.length M0 (i + 1) (j + 1) = M0 (i + 1) 0 + M0 0 (j + 1) := by
      unfold crossPass
      rw [if_pos ⟨by omega, by omega, by omega, by omega, by simpa using hk⟩]
    refine ⟨?_, ⟨C1, hC1, ?_⟩, ⟨C2, hC2, ?_⟩⟩
    · rw [hcp, hcol0, hrow0]
    · rw [hcol0, hval1 (fun _ _ => 0),
        placeChunk_depotCol _ _ _ _ _ (by unfold chunkSize; omega) (by unfold chunkSize; omega)]
      have e1 : (i + 1) - chunkSize * (i / chunkSize) = i % chunkSize + 1 := by
        unfold chunkSize
        omega
      rw [e1]
    · rw [hrow0, hval2 (fun _ _ => 0),
        placeChunk_depotRow _ _ _ _ _ (by unfold chunkSize; omega) (by unfold chunkSize; omega)]
      have e2 : (j + 1) - chunkSize * (j / chunkSize) = j % chunkSize + 1 := by
        unfold chunkSize
        omega
      rw [e2]

/-- C1 witness: 26 identical orders (2 chunks) against the all-ones
provider; the entry for the cross-chunk pair (order 0, order 25) is the
depot-detour sum. -/
theorem C1_chunked_assembly_witness :
    ∃ M, get_distance_matrix_chunked okApi (0, 0)
        (List.replicate 26 ((0 : ℚ), (0 : ℚ))) = some M ∧
      M (0 + 1) (25 + 1) = M (0 + 1) 0 + M 0 (25 + 1) := by
  have hall : ∀ k ∈ List.range (numChunks (List.replicate 26 ((0 : ℚ), (0 : ℚ))).length),
      (get_distance_matrix okApi
        ((0, 0) :: chunkCoords (List.replicate 26 ((0 : ℚ), (0 : ℚ))) k)).isSome := by
    intro k hk
    rw [List.mem_range] at hk
    have hk2 : k < 2 := by simpa [numChunks, chunkSize] using hk
    have hcl : (chunkCoords (List.replicate 26 ((0 : ℚ), (0 : ℚ))) k).length =
        min 24 (26 - 24 * k) := by
      have h := chunkCoords_length (List.replicate 26 ((0 : ℚ), (0 : ℚ))) k
      simpa [chunkSize] using h
    rw [gdm_okApi _ (by rw [List.length_cons, hcl]; omega)
      (by rw [List.length_cons, hcl]; omega)
      (by
        intro c hc
        rcases List.mem_cons.mp hc with he | hm
        · subst he; decide
        · have hr := mem_chunkCoords hm
          rw [List.eq_of_mem_replicate hr]
          decide)]
    rfl
  obtain ⟨M0, hM0⟩ := Option.isSome_iff_exists.mp
    (assembleChunks_isSome okApi (0, 0) _ _ hall (fun _ _ => 0))
  have hchunked : get_distance_matrix_chunked okApi (0, 0)
      (List.replicate 26 ((0 : ℚ), (0 : ℚ))) =
      some (crossPass (List.replicate 26 ((0 : ℚ), (0 : ℚ))).length M0) := by
    simp only [get_distance_matrix_chunked]
    rw [if_neg (by simp), hM0]
    rfl
  refine ⟨_, hchunked, ?_⟩
  exact ((C1_chunked_assembly okApi (0, 0) _ _ (by simp) hchunked 0 25
    (by simp) (by simp)).2 (by decide)).1

/-- C2 counterexample: a response with code `Ok` whose durations matrix is
all-zero and well-shaped is NOT treated as a call failure —
`get_distance_matrix` returns the zero matrix (the source explicitly only
warns, `mapbox_service.py` lines 144-149), contradicting the claim that an
all-zero matrix yields the failure value. -/
theorem C2_counterexample :
    get_distance_matrix zeroApi [(0, 0), (1, 1)] = some [[0, 0], [0, 0]] ∧
    ∀ row ∈ [[(0 : ℚ), 0], [0, 0]], ∀ x ∈ row, x = 0 := by
  constructor
  · rfl
  · decide

/-- C2 amended: a response whose durations contain a NaN/inf/null entry, or
whose durations have the wrong number of rows, or one of whose rows has the
wrong length, is treated as a call failure (`get_distance_matrix` returns
`none`); an all-zero matrix, however, is returned as a usable result. -/
theorem C2_invalid_matrix_rejected (api : Api) (coords : List Coord)
    (h : ((api coords).durations.any (fun row => row.any DVal.isBad)) = true ∨
         (api coords).durations.length ≠ coords.length ∨
         ∃ row ∈ (api coords).durations, row.length ≠ coords.length) :
    get_distance_matrix api coords = none := by
  unfold get_distance_matrix
  split_ifs with h1 h2 h3 h4 h5 h6 h7
  any_goals rfl
  exfalso
  rcases h with hbad | hlen | ⟨row, hrow, hrl⟩
  · exact h6 hbad
  · exact h5 (Or.inr hlen)
  · exact h7 (List.any_eq_true.mpr ⟨row, hrow, by simpa using hrl⟩)

/-- C2 amended witness: for the NaN provider the fetch fails. -/
theorem C2_invalid_matrix_rejected_witness :
    get_distance_matrix nanApi [(0, 0), (1, 1)] = none :=
  C2_invalid_matrix_rejected nanApi [(0, 0), (1, 1)] (Or.inl (by decide))

/-- C3 counterexample: in a run where exactly one order's coordinate
(`cexBadCoord`) always fails at the provider (first conjunct) and the
remaining order is routed successfully, the final result does NOT list the
excluded order's id anywhere: `unassigned_orders` is empty, the metadata
carries no error and no excluded count, and the routes only mention the
surviving order — the claim that the metadata lists exactly the excluded
order id is false (exclusions are only logged on the success path,
`route_optimization.py` lines 331-340). -/
theorem C3_counterexample :
    (∀ cs : List Coord, cexBadCoord ∈ cs →
      get_distance_matrix (badApi cexBadCoord) cs = none) ∧
    endpointOptimizeNoClustering (badApi cexBadCoord) allAssignedSolver (0, 0) cexOrders =
      some { success := true
             total_routes := 1
             total_orders := 1
             routes_order_ids := [["good-1"]]
             unassigned_orders := []
             solver_status := "SUCCESS"
             metadata := {} } :=
  ⟨fun cs h => gdm_badApi_none cexBadCoord cs h, rfl⟩

/-- C3 amended: when exactly one order's coordinate always fails at the
provider and every call avoiding it succeeds, the retry/exclusion
protocol excludes exactly that order and retries successfully on exactly
the remaining orders; but the excluded order id is then dropped from the
response: the success-path result's `unassigned_orders` (the only field
that ever reports exclusions) contains only solver-unassigned ids of the
remaining orders, so the excluded id appears in no field of the result.
Only the terminal all-excluded failure path reports excluded ids. -/
theorem C3_retry_excludes_failing_order
    (api : Api) (depot bad : Coord) (badId : String) (pre post : List Order)
    (H1 : ∀ cs : List Coord, bad ∈ cs → get_distance_matrix api cs = none)
    (H2 : ∀ cs : List Coord, bad ∉ cs → 2 ≤ cs.length → cs.length ≤ 25 →
      (∀ c ∈ cs, validCoord c = true) → (get_distance_matrix api cs).isSome)
    (hd : validCoord depot = true) (hdb : depot ≠ bad)
    (hgood : ∀ o ∈ pre ++ post, validCoord o.2 = true ∧ o.2 ≠ bad)
    (hne : pre ++ post ≠ []) :
    (∃ M, matrixRetryLoop api depot 2 (pre ++ (badId, bad) :: post) [] =
      .success M (pre ++ post) [(badId, bad)]) ∧
    (badId ∉ (pre ++ post).map Prod.fst →
      ∀ opt : SolveResult,
        badId ∉ (buildSuccessResult (pre ++ post) opt).unassigned_orders) := by
  have hprobes : ∀ o ∈ pre ++ post, probeOrder api depot o = true := by
    intro o ho
    unfold probeOrder
    have hs := H2 [depot, o.2]
      (by
        intro hmem
        rcases List.mem_cons.mp hmem with he | hm
        · exact hdb he.symm
        · rcases List.mem_cons.mp hm with he2 | h0
          · exact (hgood o ho).2 he2.symm
          · simp at h0)
      (by simp) (by simp)
      (by
        intro c hc
        rcases List.mem_cons.mp hc with he | hm
        · subst he; exact hd
        · rcases List.mem_cons.mp hm with he2 | h0
          · subst he2; exact (hgood o ho).1
          · simp at h0)
    simpa using hs
  have hprobebad : probeOrder api depot (badId, bad) = false := by
    unfold probeOrder
    rw [H1 [depot, bad] (by simp)]
    rfl
  have hlenpos : 1 ≤ (pre ++ post).length := List.length_pos.mpr hne
  have hfetch1 : fetchDistanceMatrix api depot (pre ++ (badId, bad) :: post) = none :=
    fetchDistanceMatrix_none_of_bad api depot bad _ H1 (by simp)
  have hfilter1 : (pre ++ (badId, bad) :: post).filter (probeOrder api depot) =
      pre ++ post := by
    rw [List.filter_append, List.filter_cons_of_neg (by simp [hprobebad]),
      List.filter_eq_self.mpr (fun o ho => hprobes o (by simp [ho])),
      List.filter_eq_self.mpr (fun o ho => hprobes o (by simp [ho]))]
  have hfilter2 : (pre ++ (badId, bad) :: post).filter
      (fun o => !(probeOrder api depot o)) = [(badId, bad)] := by
    rw [List.filter_append,
      List.filter_eq_nil_iff.mpr (fun o ho => by simp [hprobes o (by simp [ho])]),
      List.filter_cons_of_pos (by simp [hprobebad]),
      List.filter_eq_nil_iff.mpr (fun o ho => by simp [hprobes o (by simp [ho])])]
    rfl
  have hfetch2 : (fetchDistanceMatrix api depot (pre ++ post)).isSome :=
    fetchDistanceMatrix_isSome api depot bad _ H2 hd hdb hgood hne
  obtain ⟨M, hM⟩ := Option.isSome_iff_exists.mp hfetch2
  constructor
  · refine ⟨M, ?_⟩
    rw [show (2 : Nat) = 1 + 1 from rfl, matrixRetryLoop_succ, hfetch1]
    rw [if_pos ⟨le_refl 1, by simp only [List.length_append, List.length_cons] at *; omega⟩]
    simp only [hfilter1, hfilter2, List.nil_append]
    rw [if_pos (by simp only [List.length_append, List.length_cons]; omega),
      if_neg (by omega)]
    rw [show (1 : Nat) = 0 + 1 from rfl, matrixRetryLoop_succ, hM]
  · intro hnid opt
    intro hmem
    simp only [buildSuccessResult] at hmem
    rw [List.mem_filterMap] at hmem
    obtain ⟨idx, _, hidx⟩ := hmem
    exact hnid (List.get?_mem hidx)

/-- C3 amended witness. -/
theorem C3_retry_excludes_failing_order_witness :
    (∃ M, matrixRetryLoop (badApi cexBadCoord) (0, 0) 2
        ([] ++ ("bad-1", cexBadCoord) :: [("good-1", (1, 1))]) [] =
      .success M ([] ++ [("good-1", (1, 1))]) [("bad-1", cexBadCoord)]) ∧
    ("bad-1" ∉ (([] ++ [("good-1", (1, 1))]).map Prod.fst) →
      ∀ opt : SolveResult, "bad-1" ∉
        (buildSuccessResult ([] ++ [("good-1", (1, 1))]) opt).unassigned_orders) :=
  C3_retry_excludes_failing_order (badApi cexBadCoord) (0, 0) cexBadCoord "bad-1"
    [] [("good-1", (1, 1))]
    (fun cs h => gdm_badApi_none cexBadCoord cs h)
    (fun cs hnb h2 h25 hv => by rw [gdm_badApi_ok cexBadCoord cs hnb h2 h25 hv]; rfl)
    (by decide) (by decide) (by decide) (by decide)

/-- C4 counterexample: with no clustering, a caller-requested vehicle count
of `100` against a depot ceiling of `5` is used as-is — it passes the
validation step and reaches the solver uncapped, contradicting
`count ≤ ceiling`. -/
theorem C4_counterexample :
    checkNumVehicles (resolveNumVehicles false none 0 (some 100) 5 7) = .accepted 100 ∧
    ¬ (resolveNumVehicles false none 0 (some 100) 5 7 ≤ 5) := by
  constructor
  · rfl
  · decide

/-- C4 amended: a resolved count `≤ 0` is rejected (HTTP 400, raised before
the solver call at line 408) and a positive count is accepted unchanged;
whenever the count is not taken verbatim from the caller (no request, or a
falsy request of `0`), it is capped at the depot ceiling and is at least
`1` when the ceiling is at least `1`.  A nonzero caller-requested count is
used without capping. -/
theorem C4_vehicle_count (present : Bool) (tdn : Option Nat) (nc : Nat)
    (req : Option Int) (avail : Int) (norders : Nat) :
    (resolveNumVehicles present tdn nc req avail norders ≤ 0 →
      checkNumVehicles (resolveNumVehicles present tdn nc req avail norders) = .rejected) ∧
    (0 < resolveNumVehicles present tdn nc req avail norders →
      checkNumVehicles (resolveNumVehicles present tdn nc req avail norders) =
        .accepted (resolveNumVehicles present tdn nc req avail norders)) ∧
    ((req = none ∨ req = some 0) →
      resolveNumVehicles present tdn nc req avail norders ≤ avail ∧
      (1 ≤ avail → 1 ≤ resolveNumVehicles present tdn nc req avail norders)) := by
  refine ⟨fun h => ?_, fun h => ?_, fun hreq => ?_⟩
  · simp [checkNumVehicles, h]
  · simp [checkNumVehicles]
    omega
  · rcases hreq with h0 | h0 <;> subst h0 <;>
      simp only [resolveNumVehicles] <;> split_ifs <;> constructor <;> omega

/-- C4 amended witness at a concrete no-request input. -/
theorem C4_vehicle_count_witness :
    checkNumVehicles (resolveNumVehicles false none 0 none 3 7) =
      .accepted (resolveNumVehicles false none 0 none 3 7) ∧
    resolveNumVehicles false none 0 none 3 7 ≤ 3 ∧
    1 ≤ resolveNumVehicles false none 0 none 3 7 :=
  ⟨(C4_vehicle_count false none 0 none 3 7).2.1 (by decide),
   ((C4_vehicle_count false none 0 none 3 7).2.2 (Or.inl rfl)).1,
   ((C4_vehicle_count false none 0 none 3 7).2.2 (Or.inl rfl)).2 (by decide)⟩

/-- C5 counterexample: for 30 points and hint 5, the density run receives
minimum cluster size `2`, not `min(5, max(3, 30/30)) = 3` — the clustering
service adapts the endpoint value a second time
(`clustering_service.py`, line 98). -/
theorem C5_counterexample :
    ¬ (densityRunMinClusterSize 5 30 = min 5 (max 3 (30 / 30))) := by decide

/-- C5 amended: when the point count is at least the hint, the clustering
service is reached (the too-few-points branch is not taken for the
endpoint-computed size) and the density run receives
`max(2, min(min(hint, max(3, n/30)), n/20))`: the endpoint computes
`min(hint, max(3, n/30))` and the service further adapts it. -/
theorem C5_density_min_size (hint n : Nat) (h : hint ≤ n) :
    ¬ (n < endpointEffectiveMinClusterSize hint n) ∧
    densityRunMinClusterSize hint n =
      max 2 (min (min hint (max 3 (n / 30))) (n / 20)) := by
  constructor
  · have hle : endpointEffectiveMinClusterSize hint n ≤ hint := Nat.min_le_left _ _
    omega
  · rfl

/-- C5 amended witness. -/
theorem C5_density_min_size_witness :
    ¬ (30 < endpointEffectiveMinClusterSize 5 30) ∧
    densityRunMinClusterSize 5 30 = max 2 (min (min 5 (max 3 (30 / 30))) (30 / 20)) :=
  C5_density_min_size 5 30 (by decide)

/-- The second component returned by the merge step is always the
recomputed centroid table of the merged labels (by definition). -/
theorem merge_snd_eq (dist : Coord → Coord → ℚ) (coords : List Coord) (labels : List Int)
    (centroids : List (Int × Coord)) (mcs : Nat) (mdk : ℚ) :
    (merge_nearby_small_clusters dist coords labels centroids mcs mdk).2 =
      (uniqueClustersGe (merge_nearby_small_clusters dist coords labels centroids mcs mdk).1).map
        (fun c => (c, clusterCentroid coords
          (merge_nearby_small_clusters dist coords labels centroids mcs mdk).1 c)) := rfl

/-- C6 counterexample: merging is not idempotent.  Three small clusters on
a line at positions `0`, `18` and `28` (threshold distance `20`): the
first pass merges cluster `1` into cluster `0` (distance `18`) but not
cluster `2` (distance `28` from the old centroid); the recomputed merged
centroid lies at `9`, within `19` of cluster `2`, so a second pass with
identical thresholds merges again and changes the labels. -/
theorem C6_counterexample :
    (merge_nearby_small_clusters cexDist mergeCexCoords
        (merge_nearby_small_clusters cexDist mergeCexCoords mergeCexLabels
          mergeCexCentroids 5 20).1
        (merge_nearby_small_clusters cexDist mergeCexCoords mergeCexLabels
          mergeCexCentroids 5 20).2 5 20).1 ≠
      (merge_nearby_small_clusters cexDist mergeCexCoords mergeCexLabels
        mergeCexCentroids 5 20).1 := by
  have h1 : (merge_nearby_small_clusters cexDist mergeCexCoords mergeCexLabels
      mergeCexCentroids 5 20).1 = [0, 0, 0, 0, 2, 2] := by decide
  have h2 : (merge_nearby_small_clusters cexDist mergeCexCoords mergeCexLabels
      mergeCexCentroids 5 20).2 = [(0, ((0 : ℚ), (9 : ℚ))), (2, ((0 : ℚ), (28 : ℚ)))] := by
    rw [merge_snd_eq, h1]
    have hu : uniqueClustersGe [0, 0, 0, 0, 2, 2] = [0, 2] := by decide
    rw [hu]
    norm_num [clusterCentroid, meanPoint, meanQ, mergeCexCoords, List.zip, List.zipWith,
      List.filterMap]
  rw [h1, h2]
  decide

/-- C6 amended: the merge step is idempotent only at its fixpoints: if one
application returns the labels and centroids unchanged, a second
application with identical thresholds returns them unchanged as well.  In
general a second application may merge further clusters, because centroids
are recomputed after merging and can move within merge range of another
small cluster. -/
theorem C6_merge_idempotent_at_fixpoint (dist : Coord → Coord → ℚ)
    (coords : List Coord) (labels : List Int) (centroids : List (Int × Coord))
    (mcs : Nat) (mdk : ℚ)
    (h : merge_nearby_small_clusters dist coords labels centroids mcs mdk = (labels, centroids)) :
    merge_nearby_small_clusters dist coords
        (merge_nearby_small_clusters dist coords labels centroids mcs mdk).1
        (merge_nearby_small_clusters dist coords labels centroids mcs mdk).2 mcs mdk =
      merge_nearby_small_clusters dist coords labels centroids mcs mdk := by
  rw [h]
  exact h

/-- C6 amended witness: a single cluster at the size threshold is a
fixpoint (its centroid entry being the recomputed cluster mean). -/
theorem C6_merge_idempotent_at_fixpoint_witness :
    merge_nearby_small_clusters lonDist (List.replicate 5 ((0 : ℚ), (0 : ℚ)))
        (List.replicate 5 (0 : Int))
        [(0, clusterCentroid (List.replicate 5 ((0 : ℚ), (0 : ℚ)))
            (List.replicate 5 (0 : Int)) 0)] 5 1 =
      (List.replicate 5 (0 : Int),
        [(0, clusterCentroid (List.replicate 5 ((0 : ℚ), (0 : ℚ)))
            (List.replicate 5 (0 : Int)) 0)]) ∧
    merge_nearby_small_clusters lonDist (List.replicate 5 ((0 : ℚ), (0 : ℚ)))
        (merge_nearby_small_clusters lonDist (List.replicate 5 ((0 : ℚ), (0 : ℚ)))
          (List.replicate 5 (0 : Int))
          [(0, clusterCentroid (List.replicate 5 ((0 : ℚ), (0 : ℚ)))
              (List.replicate 5 (0 : Int)) 0)] 5 1).1
        (merge_nearby_small_clusters lonDist (List.replicate 5 ((0 : ℚ), (0 : ℚ)))
          (List.replicate 5 (0 : Int))
          [(0, clusterCentroid (List.replicate 5 ((0 : ℚ), (0 : ℚ)))
              (List.replicate 5 (0 : Int)) 0)] 5 1).2 5 1 =
      merge_nearby_small_clusters lonDist (List.replicate 5 ((0 : ℚ), (0 : ℚ)))
        (List.replicate 5 (0 : Int))
        [(0, clusterCentroid (List.replicate 5 ((0 : ℚ), (0 : ℚ)))
            (List.replicate 5 (0 : Int)) 0)] 5 1 :=
  ⟨rfl,
   C6_merge_idempotent_at_fixpoint lonDist (List.replicate 5 ((0 : ℚ), (0 : ℚ)))
     (List.replicate 5 (0 : Int))
     [(0, clusterCentroid (List.replicate 5 ((0 : ℚ), (0 : ℚ)))
         (List.replicate 5 (0 : Int)) 0)] 5 1 rfl⟩

/-- C7: every label returned by `cluster_orders` is non-negative, and a
point the density algorithm left as an outlier (`-1`) is reassigned by the
reassignment stage to the cluster whose centroid minimizes the planar
(squared euclidean) distance among all clusters, ties to the first. -/
theorem C7_cluster_ids_nonneg (dist : Coord → Coord → ℚ) (coords : List Coord)
    (minCS : Nat) (mflag : Bool) (mcs : Nat) (mdk : ℚ) (raw : List Int)
    (hlen : raw.length = coords.length) (hge : ∀ l ∈ raw, -1 ≤ l) :
    (∀ l ∈ (cluster_orders dist coords minCS mflag mcs mdk raw).labels, 0 ≤ l) ∧
    (uniqueClustersNe raw ≠ [] → ∀ i < raw.length, raw.getD i 0 = -1 →
      (reassignOutliers coords raw (uniqueClustersNe raw)
          ((uniqueClustersNe raw).map (fun c => (c, clusterCentroid coords raw c)))).getD i 0
        ∈ uniqueClustersNe raw ∧
      ∀ c ∈ uniqueClustersNe raw,
        sqDist (coords.getD i (0, 0))
          (clusterCentroid coords raw
            ((reassignOutliers coords raw (uniqueClustersNe raw)
                ((uniqueClustersNe raw).map
                  (fun c2 => (c2, clusterCentroid coords raw c2)))).getD i 0)) ≤
          sqDist (coords.getD i (0, 0)) (clusterCentroid coords raw c)) := by
  have hucm : ∀ c ∈ uniqueClustersNe raw, 0 ≤ c := by
    intro c hc
    have h1 := mem_uniqueClustersNe hc
    have h2 := hge _ h1.1
    have h3 := h1.2
    omega
  constructor
  · rw [cluster_orders_labels_eq]
    split_ifs with h1 h2 h3
    · intro l hl
      have := List.eq_of_mem_replicate hl
      omega
    · intro l hl
      have := List.eq_of_mem_replicate hl
      omega
    · have hucne : uniqueClustersNe raw ≠ [] := by
        intro hcon
        rw [hcon] at h2
        simp at h2
      exact merge_labels_nonneg _ _ _ _ _ _
        (reassignOutliers_nonneg _ _ _ _ hge hucne hucm)
    · have hucne : uniqueClustersNe raw ≠ [] := by
        intro hcon
        rw [hcon] at h2
        simp at h2
      exact reassignOutliers_nonneg _ _ _ _ hge hucne hucm
  · intro hucne i hi hneg
    rw [reassignOutliers_getD _ _ _ _ i hi, if_pos hneg]
    have hdl : ((uniqueClustersNe raw).map (fun c =>
        sqDist (coords.getD i (0, 0))
          ((((uniqueClustersNe raw).map
              (fun c2 => (c2, clusterCentroid coords raw c2))).lookup c).getD (0, 0)))).length =
        (uniqueClustersNe raw).length := List.length_map _ _
    have hne2 : (uniqueClustersNe raw).map (fun c =>
        sqDist (coords.getD i (0, 0))
          ((((uniqueClustersNe raw).map
              (fun c2 => (c2, clusterCentroid coords raw c2))).lookup c).getD (0, 0))) ≠ [] := by
      simpa using hucne
    have hlt : argminIdx ((uniqueClustersNe raw).map (fun c =>
        sqDist (coords.getD i (0, 0))
          ((((uniqueClustersNe raw).map
              (fun c2 => (c2, clusterCentroid coords raw c2))).lookup c).getD (0, 0)))) <
        (uniqueClustersNe raw).length := hdl ▸ argminIdx_lt _ hne2
    have hds : ∀ m, m < (uniqueClustersNe raw).length →
        ((uniqueClustersNe raw).map (fun c =>
          sqDist (coords.getD i (0, 0))
            ((((uniqueClustersNe raw).map
                (fun c2 => (c2, clusterCentroid coords raw c2))).lookup c).getD (0, 0)))).getD m 0 =
        sqDist (coords.getD i (0, 0))
          (clusterCentroid coords raw ((uniqueClustersNe raw).getD m (-1))) := by
      intro m hm
      rw [List.getD_eq_getElem _ _ (by omega : m < ((uniqueClustersNe raw).map (fun c =>
        sqDist (coords.getD i (0, 0))
          ((((uniqueClustersNe raw).map
              (fun c2 => (c2, clusterCentroid coords raw c2))).lookup c).getD (0, 0)))).length),
        List.getD_eq_getElem _ _ hm, List.getElem_map,
        lookup_map_self _ _ _ (List.getElem_mem hm)]
      rfl
    constructor
    · rw [List.getD_eq_getElem _ _ hlt]
      exact List.getElem_mem hlt
    · intro c hc
      obtain ⟨k, hk, hck⟩ := List.mem_iff_getElem.mp hc
      have hmin := argminIdx_min _ k (by omega :
        k < ((uniqueClustersNe raw).map (fun c =>
          sqDist (coords.getD i (0, 0))
            ((((uniqueClustersNe raw).map
                (fun c2 => (c2, clusterCentroid coords raw c2))).lookup c).getD (0, 0)))).length)
      calc sqDist (coords.getD i (0, 0))
            (clusterCentroid coords raw ((uniqueClustersNe raw).getD (argminIdx _) (-1)))
          = _ := (hds _ hlt).symm
        _ ≤ _ := hmin
        _ = sqDist (coords.getD i (0, 0))
            (clusterCentroid coords raw ((uniqueClustersNe raw).getD k (-1))) := hds _ hk
        _ = sqDist (coords.getD i (0, 0)) (clusterCentroid coords raw c) := by
            rw [List.getD_eq_getElem _ _ hk, hck]

/-- C7 witness. -/
theorem C7_cluster_ids_nonneg_witness :
    (∀ l ∈ (cluster_orders lonDist [(0, 0), (10, 10), (0, 1)] 1 false 5 1
        [0, 1, -1]).labels, 0 ≤ l) ∧
    (uniqueClustersNe [0, 1, -1] ≠ [] → ∀ i < ([0, 1, -1] : List Int).length,
      ([0, 1, -1] : List Int).getD i 0 = -1 →
      (reassignOutliers [(0, 0), (10, 10), (0, 1)] [0, 1, -1] (uniqueClustersNe [0, 1, -1])
          ((uniqueClustersNe [0, 1, -1]).map
            (fun c => (c, clusterCentroid [(0, 0), (10, 10), (0, 1)] [0, 1, -1] c)))).getD i 0
        ∈ uniqueClustersNe [0, 1, -1] ∧
      ∀ c ∈ uniqueClustersNe [0, 1, -1],
        sqDist (([(0, 0), (10, 10), (0, 1)] : List Coord).getD i (0, 0))
          (clusterCentroid [(0, 0), (10, 10), (0, 1)] [0, 1, -1]
            ((reassignOutliers [(0, 0), (10, 10), (0, 1)] [0, 1, -1]
                (uniqueClustersNe [0, 1, -1])
                ((uniqueClustersNe [0, 1, -1]).map
                  (fun c2 => (c2, clusterCentroid [(0, 0), (10, 10), (0, 1)]
                    [0, 1, -1] c2)))).getD i 0)) ≤
          sqDist (([(0, 0), (10, 10), (0, 1)] : List Coord).getD i (0, 0))
            (clusterCentroid [(0, 0), (10, 10), (0, 1)] [0, 1, -1] c)) :=
  C7_cluster_ids_nonneg lonDist [(0, 0), (10, 10), (0, 1)] 1 false 5 1 [0, 1, -1]
    (by decide) (by decide)

/-- C8: the arc cost equals the truncated base travel-time entry, plus the
fixed `CLUSTER_PENALTY` exactly when both endpoints are order nodes whose
cluster labels are non-negative and differ; the cost is always finite and
bounded by base + penalty, so crossing clusters is penalized but never
forbidden. -/
theorem C8_arc_cost (labels : List Int) (M : Mat) (f t : Nat)
    (hf : f ≤ labels.length) (ht : t ≤ labels.length) :
    distance_callback (some labels) M f t =
      pyInt (M f t) +
        (if 0 < f ∧ 0 < t ∧ labels.getD (f - 1) 0 ≠ labels.getD (t - 1) 0 ∧
            0 ≤ labels.getD (f - 1) 0 ∧ 0 ≤ labels.getD (t - 1) 0
          then CLUSTER_PENALTY else 0) ∧
    pyInt (M f t) ≤ distance_callback (some labels) M f t ∧
    distance_callback (some labels) M f t ≤ pyInt (M f t) + CLUSTER_PENALTY := by
  have heq : distance_callback (some labels) M f t =
      pyInt (M f t) +
        (if 0 < f ∧ 0 < t ∧ labels.getD (f - 1) 0 ≠ labels.getD (t - 1) 0 ∧
            0 ≤ labels.getD (f - 1) 0 ∧ 0 ≤ labels.getD (t - 1) 0
          then CLUSTER_PENALTY else 0) := by
    simp only [distance_callback]
    by_cases h1 : 0 < f ∧ 0 < t
    · by_cases h2 : labels.getD (f - 1) 0 ≠ labels.getD (t - 1) 0 ∧
          0 ≤ labels.getD (f - 1) 0 ∧ 0 ≤ labels.getD (t - 1) 0
      · rw [if_pos h1, if_pos h2, if_pos ⟨h1.1, h1.2, h2.1, h2.2.1, h2.2.2⟩]
      · rw [if_pos h1, if_neg h2, if_neg, add_zero]
        intro hc
        exact h2 ⟨hc.2.2.1, hc.2.2.2.1, hc.2.2.2.2⟩
    · rw [if_neg h1, if_neg, add_zero]
      intro hc
      exact h1 ⟨hc.1, hc.2.1⟩
  have hpen : (0 : Int) ≤ CLUSTER_PENALTY := by decide
  refine ⟨heq, ?_, ?_⟩ <;> rw [heq] <;> split_ifs <;> omega

/-- C8 witness. -/
theorem C8_arc_cost_witness :
    distance_callback (some [0, 1]) (fun _ _ => 5) 1 2 =
      pyInt 5 +
        (if 0 < 1 ∧ 0 < 2 ∧ [(0 : Int), 1].getD 0 0 ≠ [(0 : Int), 1].getD 1 0 ∧
            0 ≤ [(0 : Int), 1].getD 0 0 ∧ 0 ≤ [(0 : Int), 1].getD 1 0
          then CLUSTER_PENALTY else 0) :=
  (C8_arc_cost [0, 1] (fun _ _ => 5) 1 2 (by decide) (by decide)).1

/-- C9: when the solver finds no feasible solution (the abstract solve
outcome is `none`) and there is at least one order, `optimize_routes`
returns a result with status `FAILED`, an empty route list and every order
index unassigned — a value, not an exception (the embedding is a total
function). -/
theorem C9_no_feasible_solution (σ : Type) (extract : σ → SolveResult)
    (num_vehicles : Nat) (distance_matrix : List (List ℚ))
    (h : 2 ≤ distance_matrix.length) :
    (optimize_routes (σ := σ) none extract num_vehicles distance_matrix).solver_status =
      "FAILED" ∧
    (optimize_routes (σ := σ) none extract num_vehicles distance_matrix).routes = [] ∧
    (optimize_routes (σ := σ) none extract num_vehicles distance_matrix).unassigned =
      List.range (distance_matrix.length - 1) ∧
    ∀ k < distance_matrix.length - 1,
      k ∈ (optimize_routes (σ := σ) none extract num_vehicles distance_matrix).unassigned := by
  have hne : ¬ (distance_matrix.length - 1 = 0) := by omega
  simp [optimize_routes, hne, List.mem_range]

/-- C9 witness. -/
theorem C9_no_feasible_solution_witness :
    (optimize_routes (σ := Unit) none
        (fun _ => ⟨[], 0, 0, "", 0, []⟩) 1 [[0, 0], [0, 0]]).solver_status = "FAILED" ∧
    (optimize_routes (σ := Unit) none
        (fun _ => ⟨[], 0, 0, "", 0, []⟩) 1 [[0, 0], [0, 0]]).routes = [] ∧
    (optimize_routes (σ := Unit) none
        (fun _ => ⟨[], 0, 0, "", 0, []⟩) 1 [[0, 0], [0, 0]]).unassigned = List.range 1 :=
  ⟨(C9_no_feasible_solution Unit _ 1 _ (by decide)).1,
   (C9_no_feasible_solution Unit _ 1 _ (by decide)).2.1,
   (C9_no_feasible_solution Unit _ 1 _ (by decide)).2.2.1⟩

/-- C10: when HDBSCAN labels every point as an outlier, `cluster_orders`
still returns a complete assignment: one cluster with id `0` covering all
points, centroid equal to the coordinate mean, and an outlier count equal
to the number of points. -/
theorem C10_all_outliers (dist : Coord → Coord → ℚ) (coords : List Coord)
    (minCS : Nat) (mflag : Bool) (mcs : Nat) (mdk : ℚ) (raw : List Int)
    (hlen : raw.length = coords.length)
    (hall : ∀ l ∈ raw, l = -1)
    (hmin : minCS ≤ coords.length)
    (hpos : 0 < coords.length) :
    cluster_orders dist coords minCS mflag mcs mdk raw =
      { labels := List.replicate coords.length 0
        original_labels := raw
        n_clusters := 1
        centroids := [(0, meanPoint coords)]
        outlier_count := coords.length } := by
  have hfilter : raw.filter (fun l => l ≠ -1) = [] := by
    refine List.filter_eq_nil_iff.mpr (fun a ha => ?_)
    simp [hall a ha]
  have hunique : uniqueClustersNe raw = [] := by
    unfold uniqueClustersNe npUnique
    rw [hfilter]
    rfl
  simp [cluster_orders, hunique, Nat.not_lt.mpr hmin]

/-- C10 witness. -/
theorem C10_all_outliers_witness :
    cluster_orders lonDist [(1, 2), (3, 4)] 2 true 5 1 [-1, -1] =
      { labels := List.replicate 2 0
        original_labels := [-1, -1]
        n_clusters := 1
        centroids := [(0, meanPoint [(1, 2), (3, 4)])]
        outlier_count := 2 } :=
  C10_all_outliers lonDist [(1, 2), (3, 4)] 2 true 5 1 [-1, -1]
    (by decide) (by decide) (by decide) (by decide)

end EzGo
